import Mathlib

/-!
Verification development for the sc8pr geometry module
(`sc8pr/shape.py` and `sc8pr/plot/shape.py`).

The Python code is shallowly embedded in Lean.  Real-number arithmetic of
the source (Python floats) is modelled by exact arithmetic: rational
numbers `ℚ` wherever the source only uses field operations, and real
numbers `ℝ` where the source calls `hypot`/`cos`/`sin` (square roots and
trigonometry).  Fallible code paths are modelled with `Option`/`Except`.
-/

namespace Sc8pr

/-! ## Line (sc8pr/shape.py, class Line)

A constructed `Line` object carries an anchor `pos`, a direction `u`, a
`length` (the Python attribute holds either a number or `None`; `None` is
the infinite-line sentinel used by `closest`/`intersect`) and the stroke
`weight` (class attribute default 1).  The claims quantify over such
records, mirroring the attribute state a `Line` object can be in. -/

structure Line where
  pos : ℚ × ℚ
  u : ℚ × ℚ
  length : Option ℚ
  weight : ℚ := 1

/-- `Line.resolution = 1e-10` (class attribute). -/
def resolution : ℚ := 1 / 10 ^ 10

/-- `Line.point(s)`: `px + s * ux, py + s * uy`. -/
def Line.point (L : Line) (s : ℚ) : ℚ × ℚ :=
  (L.pos.1 + s * L.u.1, L.pos.2 + s * L.u.2)

/-- `Line.parameters(point)`: decomposition `(s, d) = (ux*dx + uy*dy, ux*dy - uy*dx)`
of `point - pos` along `u` and its perpendicular. -/
def Line.parameters (L : Line) (p : ℚ × ℚ) : ℚ × ℚ :=
  let dx := p.1 - L.pos.1
  let dy := p.2 - L.pos.2
  (L.u.1 * dx + L.u.2 * dy, L.u.1 * dy - L.u.2 * dx)

/-- `Line.closest(point)`: project, then clamp the parameter to `[0, length]`
when `length` is truthy (not `None` and not `0`), and return `point(s)`. -/
def Line.closest (L : Line) (p : ℚ × ℚ) : ℚ × ℚ :=
  let s0 := (L.parameters p).1
  let s :=
    match L.length with
    | none => s0
    | some l => if l = 0 then s0 else if s0 < 0 then 0 else if s0 > l then l else s0
  L.point s

/-- The bound test `length is None or (s >= 0 and s <= length)` from
`Line.intersect`. -/
def inBounds (len : Option ℚ) (s : ℚ) : Bool :=
  match len with
  | none => true
  | some l => s ≥ 0 && s ≤ l

/-- Result of `Line.intersect`: Python returns `None` (no intersection), a
point tuple, or `True` (two coincident infinite lines). -/
inductive ISect where
  | none
  | pt (p : ℚ × ℚ)
  | all
  deriving DecidableEq

/-- `det = u2x * u1y - u1x * u2y` computed by `Line.intersect`. -/
def isectDet (L1 L2 : Line) : ℚ :=
  L2.u.1 * L1.u.2 - L1.u.1 * L2.u.2

/-- `s1 = (u2x * dy - u2y * dx) / det`, the Cramer parameter along `self`. -/
def isectS1 (L1 L2 : Line) : ℚ :=
  (L2.u.1 * (L2.pos.2 - L1.pos.2) - L2.u.2 * (L2.pos.1 - L1.pos.1)) / isectDet L1 L2

/-- `s2 = (u1x * dy - u1y * dx) / det`, the Cramer parameter along `other`. -/
def isectS2 (L1 L2 : Line) : ℚ :=
  (L1.u.1 * (L2.pos.2 - L1.pos.2) - L1.u.2 * (L2.pos.1 - L1.pos.1)) / isectDet L1 L2

/-- `Line.intersect(other)`, translated branch by branch.  Note the parallel
branch compares the signed offset `d` with `resolution` without taking an
absolute value, exactly as the source does (`if d <= self.resolution:`). -/
def Line.intersect (L1 L2 : Line) : ISect :=
  let det := L2.u.1 * L1.u.2 - L1.u.1 * L2.u.2
  if det ≠ 0 then
    let dx := L2.pos.1 - L1.pos.1
    let dy := L2.pos.2 - L1.pos.2
    let s1 := (L2.u.1 * dy - L2.u.2 * dx) / det
    if inBounds L1.length s1 then
      let s2 := (L1.u.1 * dy - L1.u.2 * dx) / det
      if inBounds L2.length s2 then ISect.pt (L1.point s1) else ISect.none
    else ISect.none
  else
    -- lines are parallel: s0, d = self.parameters(other.point())
    let sd := L1.parameters (L2.point 0)
    if sd.2 ≤ resolution then
      match L1.length, L2.length with
      | none, none => ISect.all
      | none, some l2 => ISect.pt (L2.point (l2 / 2))   -- other.midpoint()
      | some l1, none => ISect.pt (L1.point (l1 / 2))   -- self.midpoint()
      | some l1, some l2 =>
        let s0 := sd.1
        let s1 := (L1.parameters (L2.point l2)).1
        let a := max 0 (min s0 s1)
        let b := min l1 (max s0 s1)
        if b ≥ a then ISect.pt (L1.point ((a + b) / 2)) else ISect.none
    else ISect.none

/-- `Line.contains(pos)`: `abs(self.parameters(pos)[1]) <= 1 + self.weight / 2`. -/
def Line.contains (L : Line) (p : ℚ × ℚ) : Bool :=
  |(L.parameters p).2| ≤ 1 + L.weight / 2

/-- The point `p0 + s*u + d*n` with `n = (-uy, ux)` the perpendicular of `u`,
the local frame described in the docstring of `Line.parameters`. -/
def Line.atParam (L : Line) (s d : ℚ) : ℚ × ℚ :=
  (L.pos.1 + s * L.u.1 - d * L.u.2, L.pos.2 + s * L.u.2 + d * L.u.1)

/-- Squared Euclidean distance between two rational points. -/
def dist2 (a b : ℚ × ℚ) : ℚ :=
  (a.1 - b.1) ^ 2 + (a.2 - b.2) ^ 2

/-! ## Line.__init__ (sc8pr/shape.py, lines 96-108)

The constructor calls `math.hypot`, i.e. a real square root, so its output
is modelled with real-valued fields. -/

/-- The state written by `Line.__init__`: `pos`, the normalized direction
`u = (ux/hypot, uy/hypot)` and `length = hypot(ux, uy)`. -/
structure LineR where
  pos : ℝ × ℝ
  u : ℝ × ℝ
  length : Option ℝ

/-- The three constructor argument paths of `Line.__init__`: a second
point (`point` not `None`), a numeric `vector` (slope, giving `(1, m)`),
or a `vector` pair. -/
inductive LineSpec where
  | pt (p : ℚ × ℚ)
  | slope (m : ℚ)
  | vec (v : ℚ × ℚ)

/-- `Line.__init__(start, point, vector)`: compute `(ux, uy)` from the
argument path, then `self.length = hypot(ux, uy)` and
`self.u = (ux / length, uy / length)`.  `hypot x y = sqrt (x² + y²)`.
The `length` field is always set to the (finite) hypotenuse; the `None`
sentinel is never produced here. -/
noncomputable def lineInit (start : ℚ × ℚ) (spec : LineSpec) : LineR :=
  let uxy : ℚ × ℚ :=
    match spec with
    | .pt p => (p.1 - start.1, p.2 - start.2)
    | .slope m => (1, m)
    | .vec v => v
  let h : ℝ := Real.sqrt ((uxy.1 : ℝ) ^ 2 + (uxy.2 : ℝ) ^ 2)
  { pos := ((start.1 : ℝ), (start.2 : ℝ))
    u := ((uxy.1 : ℝ) / h, (uxy.2 : ℝ) / h)
    length := some h }

/-! ## Polygon (sc8pr/shape.py, class Polygon)

Only the state touched by the rotation and arrow claims is modelled:
the vertex list, the anchor `pos`, and the cumulative `_angle`. -/

structure Polygon where
  vertices : List (ℝ × ℝ)
  pos : ℝ × ℝ
  angle : ℝ

/-- Modelled from the spec: `transform2dGen` lives in `sc8pr/geom.py`,
which is not part of the sources here.  Per the spec, `rotate` applies a
rigid rotation around the anchor: shift the pivot to the origin, rotate
by the angle, shift back.  `rotVec` is the standard rotation of a plane
vector by an angle. -/
noncomputable def rotVec (a : ℝ) (v : ℝ × ℝ) : ℝ × ℝ :=
  (v.1 * Real.cos a - v.2 * Real.sin a, v.1 * Real.sin a + v.2 * Real.cos a)

/-- Modelled from the spec: rotation of a point `p` around a pivot —
`preShift` by `-pivot`, rotate, `shift` by `pivot` (the calling pattern of
`transform2dGen`/`transform2d` in `Polygon.rotate` and `PVector.rotate`). -/
noncomputable def rotAbout (a : ℝ) (pivot p : ℝ × ℝ) : ℝ × ℝ :=
  let q := rotVec a (p.1 - pivot.1, p.2 - pivot.2)
  (q.1 + pivot.1, q.2 + pivot.2)

/-- `Polygon.rotate(angle)`: rotate every vertex around `self._pos`,
reconstruct from the new vertex list with the same anchor, and add the
angle to the cumulative `_angle`. -/
noncomputable def Polygon.rotate (P : Polygon) (a : ℝ) : Polygon :=
  { vertices := P.vertices.map (fun p => rotAbout a P.pos p)
    pos := P.pos
    angle := P.angle + a }

/-- `Polygon.arrow(pos, tail, width, head, flatness)` for a numeric `tail`
(the `type(tail) in (int, float)` branch, where `angle = 0`):
`width *= tail / 2`, `head *= tail`, `y = head * flatness / 2`, and the
7-vertex list is returned together with the angle. -/
def Polygon.arrow (tail width head flatness : ℚ) : List (ℚ × ℚ) × ℚ :=
  let w := width * (tail / 2)
  let h := head * tail
  let y := h * flatness / 2
  ([(0, 0), (-h, y), (-h, w), (-tail, w),
    (-tail, -w), (-h, -w), (-h, -y)], 0)

/-! ## PVector (sc8pr/plot/shape.py, class PVector)

A `PVector` is a 2D vector value (inherited from `pygame.math.Vector2`)
together with a `tail` anchor (class default `(0, 0)`). -/

structure PV where
  vec : ℝ × ℝ
  tail : ℝ × ℝ

/-- `PVector.tip`: `Vector2(self.tail) + self`. -/
def tip (v : PV) : ℝ × ℝ :=
  (v.tail.1 + v.vec.1, v.tail.2 + v.vec.2)

/-- `PVector.csPos`: midpoint of tail and tip, `Vector2(self.tail) + self / 2`. -/
noncomputable def csPos (v : PV) : ℝ × ℝ :=
  (v.tail.1 + v.vec.1 / 2, v.tail.2 + v.vec.2 / 2)

/-- Assignment `v.tail = t` (the vector value is unchanged). -/
def setTail (v : PV) (t : ℝ × ℝ) : PV :=
  { vec := v.vec, tail := t }

/-- `-1 * v`: `Vector2.__rmul__` negates the components and `PVector(xy=...)`
wraps the result in a fresh vector with the default tail `(0, 0)`. -/
def pvNeg (v : PV) : PV :=
  { vec := (-v.vec.1, -v.vec.2), tail := (0, 0) }

/-- `Vector2.from_polar((r, theta))` with `theta` in degrees. -/
noncomputable def fromPolar (r theta : ℚ) : ℝ × ℝ :=
  ((r : ℝ) * Real.cos ((theta : ℝ) * Real.pi / 180),
   (r : ℝ) * Real.sin ((theta : ℝ) * Real.pi / 180))

/-- `PVector.__init__(mag, theta)` for a numeric `mag` (not a `Vector2`):
`super().__init__(xy)` starts from `(0, 0)` and default tail, then, since
`mag is not None`, a negative magnitude is replaced by
`mag = -mag; theta += 180` before `from_polar((mag, theta))`. -/
noncomputable def PVinit (mag theta : ℚ) : PV :=
  if mag < 0 then { vec := fromPolar (-mag) (theta + 180), tail := (0, 0) }
  else { vec := fromPolar mag theta, tail := (0, 0) }

/-- `PVector.rotate(angle, xy)` with an explicit pivot `xy`: the tail is
rotated around the pivot (`transform2d(self.tail, rotate=angle, shift=xy,
preShift=True)`) and the vector value is rotated in place
(`self.rotate_ip(angle)`).  Modelled from the spec for `transform2d`
(sc8pr/geom.py) and `Vector2.rotate_ip` (pygame): both are rigid
rotations by the angle. -/
noncomputable def PV.rotate (v : PV) (a : ℝ) (xy : ℝ × ℝ) : PV :=
  { vec := rotVec a v.vec, tail := rotAbout a xy v.tail }

/-- `PVector.sum(args)`: fold vector addition starting from `Vector2()`
(the zero vector), and wrap as `PVector(xy=s)` (default tail). -/
def PVsum (l : List PV) : PV :=
  { vec := l.foldl (fun s v => (s.1 + v.vec.1, s.2 + v.vec.2)) (0, 0)
    tail := (0, 0) }

/-- Inner loop of `PVector.tipToTail`: `v.tail = v0.tip; v0 = v` for each
subsequent vector (each tail is set to the tip of the already-updated
predecessor). -/
def tttAux : PV → List PV → List PV
  | _, [] => []
  | v0, v :: vs =>
    let v' := setTail v (tip v0)
    v' :: tttAux v' vs

/-- `PVector.tipToTail(vecs)`: the first vector is untouched; every
subsequent vector's tail is re-anchored to the previous vector's tip. -/
def tipToTail : List PV → List PV
  | [] => []
  | v :: vs => v :: tttAux v vs

/-! ## PVector.parse (sc8pr/plot/shape.py, lines 195-212 and 256-277)

The two term regexes are
`_num = "[-|\+]{0,1}\d+\.{0,1}\d*([e|E][-|\+]{0,1}[\d]*){0,1}"`,
Cartesian `\( _num , _num \)` and polar `_num @ _num`, anchored at the
start of the remaining input by `re.match`.  Each sub-pattern of `_num`
is greedy; since no repeated piece can consume a character that the
following piece needs (digits, dot, exponent marker, sign, comma, `@`
and parentheses are pairwise disjoint here), maximal-munch matching
computes exactly the Python match length, so the matchers below count
greedily without backtracking.  Note the character classes are written
with a literal pipe, so `|` is accepted both as a "sign" and as an
exponent marker. -/

/-- Greedy count of leading decimal digits (the regex pieces `\d+`, `\d*`). -/
def digitsCount (e : List Char) : Nat :=
  (e.takeWhile Char.isDigit).length

/-- Length (0 or 1) matched by the sign class `[-|\+]{0,1}`. -/
def matchSign (e : List Char) : Nat :=
  match e with
  | c :: _ => if c = '-' ∨ c = '|' ∨ c = '+' then 1 else 0
  | [] => 0

/-- Match length of `_num` at the front of the input, or `none`. -/
def matchNum (e : List Char) : Option Nat :=
  let s := matchSign e
  let e1 := e.drop s
  let d1 := digitsCount e1
  if d1 = 0 then none else
  let e2 := e1.drop d1
  let dot := match e2 with | '.' :: _ => 1 | _ => 0
  let e3 := e2.drop dot
  let d2 := digitsCount e3
  let e4 := e3.drop d2
  let ex :=
    match e4 with
    | c :: r =>
      if c = 'e' ∨ c = '|' ∨ c = 'E' then 1 + matchSign r + digitsCount (r.drop (matchSign r))
      else 0
    | [] => 0
  some (s + d1 + dot + d2 + ex)

/-- Match length of the Cartesian regex `\( _num , _num \)`. -/
def matchCart (e : List Char) : Option Nat :=
  match e with
  | '(' :: r =>
    match matchNum r with
    | some n1 =>
      match r.drop n1 with
      | ',' :: r2 =>
        match matchNum r2 with
        | some n2 =>
          match r2.drop n2 with
          | ')' :: _ => some (n1 + n2 + 3)
          | _ => none
        | none => none
      | _ => none
    | none => none
  | _ => none

/-- Match length of the polar regex `_num @ _num`. -/
def matchPolar (e : List Char) : Option Nat :=
  match matchNum e with
  | some n1 =>
    match e.drop n1 with
    | '@' :: r =>
      match matchNum r with
      | some n2 => some (n1 + n2 + 1)
      | none => none
    | _ => none
  | none => none

/-- Numeric value of a digit string. -/
def natVal (ds : List Char) : Nat :=
  ds.foldl (fun a c => 10 * a + (c.toNat - 48)) 0

/-- Python's `float(token)` on strings drawn from the `_num` regex
language, modelled exactly: `none` when `float` would raise `ValueError`
(a `|` in a sign position, an exponent marker with no digits, or any
other leftover character), otherwise the exact decimal value as a
rational. -/
def pyFloat (e : List Char) : Option ℚ :=
  let se : Option ℚ × List Char :=
    match e with
    | '-' :: r => (some (-1), r)
    | '+' :: r => (some 1, r)
    | '|' :: r => (none, r)
    | _ => (some 1, e)
  match se.1 with
  | none => none
  | some sgn =>
    let e1 := se.2
    let ds := e1.takeWhile Char.isDigit
    if ds = [] then none else
    let e2 := e1.drop ds.length
    let fe : List Char × List Char :=
      match e2 with
      | '.' :: r => (r.takeWhile Char.isDigit, r.drop (r.takeWhile Char.isDigit).length)
      | _ => ([], e2)
    let base : ℚ := (natVal ds : ℚ) + (natVal fe.1 : ℚ) / 10 ^ fe.1.length
    match fe.2 with
    | [] => some (sgn * base)
    | c :: r =>
      if c = 'e' ∨ c = 'E' then
        let sr : Option ℤ × List Char :=
          match r with
          | '-' :: t => (some (-1), t)
          | '+' :: t => (some 1, t)
          | '|' :: t => (none, t)
          | _ => (some 1, r)
        match sr.1 with
        | none => none
        | some es =>
          let ed := sr.2.takeWhile Char.isDigit
          if ed = [] ∨ sr.2.drop ed.length ≠ [] then none
          else some (sgn * base * (10 : ℚ) ^ (es * (natVal ed : ℤ)))
      else none

/-- `_parse(expr, 0)` value step: slice off the parentheses
(`m[1:-1]`), split at the comma, convert both halves with `float`, and
build `PVector(xy=[x, y])` (default tail). -/
def cartVal (tok : List Char) : Option PV :=
  match ((tok.drop 1).dropLast).splitOn ',' with
  | a :: b :: _ =>
    match pyFloat a, pyFloat b with
    | some x, some y => some { vec := ((x : ℝ), (y : ℝ)), tail := (0, 0) }
    | _, _ => none
  | _ => none

/-- `_parse(expr, 1)` value step: split the matched token at `@`, convert
both halves with `float`, and build `PVector(r, theta)`. -/
noncomputable def polarVal (tok : List Char) : Option PV :=
  match tok.splitOn '@' with
  | a :: b :: _ =>
    match pyFloat a, pyFloat b with
    | some r, some t => some (PVinit r t)
    | _, _ => none
  | _ => none

/-- The leading-sign step of the parse loop: `if expr[0] in "+-":` consume
it, remembering `neg` for a `-`. -/
def stripSign (e : List Char) : Bool × List Char :=
  match e with
  | '-' :: r => (true, r)
  | '+' :: r => (false, r)
  | _ => (false, e)

/-- The loop of `PVector.parse`, with explicit fuel (each iteration
consumes at least one character, and the loop is entered with
`length + 1` fuel, so the fuel never runs out).  Per iteration: strip a
leading sign, try the Cartesian regex then the polar regex; on a match,
convert the token (a failing `float` raises `ValueError`, modelled as
`.error ()`) and continue past it; on no match, stop — then
`if expr: raise ValueError(...)`. -/
noncomputable def parseLoop : Nat → List Char → List PV → Except Unit (List PV)
  | _, [], acc => .ok acc.reverse
  | 0, _ :: _, _ => .error ()
  | fuel + 1, c :: cs, acc =>
    let ne := stripSign (c :: cs)
    let neg := ne.1
    let e1 := ne.2
    match matchCart e1 with
    | some n =>
      match cartVal (e1.take n) with
      | some v => parseLoop fuel (e1.drop n) ((if neg then pvNeg v else v) :: acc)
      | none => .error ()
    | none =>
      match matchPolar e1 with
      | some n =>
        match polarVal (e1.take n) with
        | some v => parseLoop fuel (e1.drop n) ((if neg then pvNeg v else v) :: acc)
        | none => .error ()
      | none => if e1 = [] then .ok acc.reverse else .error ()

/-- `re.subn("\s*", "", string)`: drop every whitespace character. -/
def stripWs (s : String) : List Char :=
  s.data.filter (fun c => !c.isWhitespace)

/-- `PVector.parse(string)`: strip whitespace, run the term loop, raise on
an unconsumed remainder or a failing `float`, and lay the parsed vectors
out tip to tail. -/
noncomputable def parse (s : String) : Except Unit (List PV) :=
  let expr := stripWs s
  match parseLoop (expr.length + 1) expr [] with
  | .error e => .error e
  | .ok vs => .ok (tipToTail vs)

/-! ### Regex-matching skeleton of the parse loop

`tokens` performs exactly the greedy term matching of the parse loop but
records the matched terms instead of converting them, and returns the
unmatched remainder.  It makes the remainder that `PVector.parse` tests
(`if expr: raise ...`) a first-class value, so claims about "the unmatched
remainder after greedy matching" can be stated; `parseLoop_eq_assemble`
below proves it equivalent to the real loop. -/

/-- A matched term: the `neg` flag, whether the polar regex matched (the
Cartesian one is tried first), and the matched characters. -/
abbrev Tok := Bool × Bool × List Char

/-- Greedy term matching only: the list of matched terms and the
unmatched remainder (the value `expr` holds when the loop ends). -/
def tokens : Nat → List Char → List Tok × List Char
  | _, [] => ([], [])
  | 0, c :: cs => ([], c :: cs)
  | fuel + 1, c :: cs =>
    let ne := stripSign (c :: cs)
    let e1 := ne.2
    match matchCart e1 with
    | some n =>
      let tr := tokens fuel (e1.drop n)
      ((ne.1, false, e1.take n) :: tr.1, tr.2)
    | none =>
      match matchPolar e1 with
      | some n =>
        let tr := tokens fuel (e1.drop n)
        ((ne.1, true, e1.take n) :: tr.1, tr.2)
      | none => ([], e1)

/-- Token conversion, as the loop performs it on each matched term. -/
noncomputable def convertTok (t : Tok) : Option PV :=
  (if t.2.1 then polarVal t.2.2 else cartVal t.2.2).map
    (fun v => if t.1 then pvNeg v else v)

/-- Convert every matched term; `none` as soon as one `float` fails. -/
noncomputable def convertAll : List Tok → Option (List PV)
  | [] => some []
  | t :: ts =>
    match convertTok t, convertAll ts with
    | some v, some vs => some (v :: vs)
    | _, _ => none

/-- Reassembly of the loop's outcome from the skeleton: error on a failed
conversion, error on a non-empty remainder, otherwise the accumulated
vectors followed by the converted terms. -/
noncomputable def assemble (acc : List PV) (tr : List Tok × List Char) : Except Unit (List PV) :=
  match convertAll tr.1 with
  | none => .error ()
  | some vs => if tr.2 = [] then .ok (acc.reverse ++ vs) else .error ()

/-- The skeleton applied as `PVector.parse` applies the loop. -/
def parseTokens (s : String) : List Tok × List Char :=
  tokens ((stripWs s).length + 1) (stripWs s)

/-! ## Theorems -/

/-- C1: the claim fails on the code.  `Line.intersect` decides collinearity
by `d <= self.resolution` on the *signed* perpendicular offset, without an
absolute value.  For the two parallel horizontal unit segments
`self = Line((0,0),(1,0))` and `other = Line((0,-5),(1,-5))`, the offset of
`other`'s anchor is `d = -5`, which satisfies `d ≤ 1e-10` although
`|d| = 5 > 1e-10`, so the code treats the far-apart segments as collinear
and returns the projected-overlap midpoint `(0.5, 0.0)` instead of no
result. -/
theorem C1_parallel_signed_offset_bug :
    Line.intersect ⟨(0, 0), (1, 0), some 1, 1⟩ ⟨(0, -5), (1, 0), some 1, 1⟩ =
      ISect.pt (1 / 2, 0) ∧
    (Line.parameters ⟨(0, 0), (1, 0), some 1, 1⟩
      ((⟨(0, -5), (1, 0), some 1, 1⟩ : Line).point 0)).2 = -5 ∧
    ¬(|(Line.parameters ⟨(0, 0), (1, 0), some 1, 1⟩
      ((⟨(0, -5), (1, 0), some 1, 1⟩ : Line).point 0)).2| ≤ resolution) := by
  refine ⟨?_, ?_, ?_⟩ <;>
    norm_num [Line.intersect, Line.parameters, Line.point, inBounds, resolution]

/-- C5: for every numeric tail, `Polygon.arrow` returns a 7-vertex list
that is mirror-symmetric about the shaft axis (vertex 1 on the axis, the
y-coordinates of vertices 2, 3, 4 opposite to those of vertices 7, 6, 5),
with rotation angle 0, the width scaled by `tail/2`, the head by `tail`,
and the barb offset `head*flatness/2`; in particular for
`tail=10, width=0.1, head=0.2, flatness=2`. -/
theorem C5_arrow (t w h f : ℚ) :
    (Polygon.arrow t w h f).1.length = 7 ∧
    (Polygon.arrow t w h f).2 = 0 ∧
    (∃ y w2 h2,
      Polygon.arrow t w h f =
        ([(0, 0), (-h2, y), (-h2, w2), (-t, w2), (-t, -w2), (-h2, -w2), (-h2, -y)], 0) ∧
      w2 = w * (t / 2) ∧ h2 = h * t ∧ y = h2 * f / 2) ∧
    Polygon.arrow 10 (1 / 10) (1 / 5) 2 =
      ([(0, 0), (-2, 2), (-2, 1 / 2), (-10, 1 / 2),
        (-10, -(1 / 2)), (-2, -(1 / 2)), (-2, -2)], 0) := by
  refine ⟨rfl, rfl, ⟨h * t * f / 2, w * (t / 2), h * t, rfl, rfl, rfl, rfl⟩, ?_⟩
  norm_num [Polygon.arrow]

/-- Helper: the squared distance from `p` to the parametric point
`L.point t` decomposes along the local frame of a unit-direction line as
`(t - s)² + d²` with `(s, d) = L.parameters p`. -/
theorem dist2_point_decomp (L : Line) (p : ℚ × ℚ)
    (hu : L.u.1 ^ 2 + L.u.2 ^ 2 = 1) (t : ℚ) :
    dist2 (L.point t) p = (t - (L.parameters p).1) ^ 2 + (L.parameters p).2 ^ 2 := by
  simp only [dist2, Line.point, Line.parameters]
  linear_combination (t ^ 2 - (p.1 - L.pos.1) ^ 2 - (p.2 - L.pos.2) ^ 2) * hu

/-- C9: `Line.contains` accepts a point exactly when its perpendicular
offset `d` from the infinite line satisfies `|d| ≤ 1 + weight/2`; the
longitudinal parameter `s` is unconstrained, so every point
`p0 + s*u + d*n` with `|d|` within the tolerance is contained, for any
`s` whatsoever. -/
theorem C9_contains_tolerance (L : Line) (hu : L.u.1 ^ 2 + L.u.2 ^ 2 = 1) :
    (∀ p, L.contains p = true ↔ |(L.parameters p).2| ≤ 1 + L.weight / 2) ∧
    (∀ s d, L.parameters (L.atParam s d) = (s, d)) ∧
    (∀ s d, |d| ≤ 1 + L.weight / 2 → L.contains (L.atParam s d) = true) := by
  have hpar : ∀ s d, L.parameters (L.atParam s d) = (s, d) := by
    intro s d
    simp only [Line.parameters, Line.atParam, Prod.ext_iff]
    constructor
    · linear_combination s * hu
    · linear_combination d * hu
  refine ⟨fun p => by simp [Line.contains], hpar, fun s d hd => ?_⟩
  simp [Line.contains, hpar s d]
  exact hd

/-- C9 witness: the line through the origin along the x-axis with weight 1
contains any point at perpendicular distance at most `1 + 1/2`, at any
longitudinal position. -/
theorem C9_witness :
    ((⟨(0, 0), (1, 0), some 1, 1⟩ : Line).u.1 ^ 2 +
      (⟨(0, 0), (1, 0), some 1, 1⟩ : Line).u.2 ^ 2 = 1) ∧
    ((∀ p, (⟨(0, 0), (1, 0), some 1, 1⟩ : Line).contains p = true ↔
        |((⟨(0, 0), (1, 0), some 1, 1⟩ : Line).parameters p).2| ≤
          1 + (⟨(0, 0), (1, 0), some 1, 1⟩ : Line).weight / 2) ∧
      (∀ s d, (⟨(0, 0), (1, 0), some 1, 1⟩ : Line).parameters
          ((⟨(0, 0), (1, 0), some 1, 1⟩ : Line).atParam s d) = (s, d)) ∧
      (∀ s d, |d| ≤ 1 + (⟨(0, 0), (1, 0), some 1, 1⟩ : Line).weight / 2 →
        (⟨(0, 0), (1, 0), some 1, 1⟩ : Line).contains
          ((⟨(0, 0), (1, 0), some 1, 1⟩ : Line).atParam s d) = true)) :=
  ⟨by norm_num, C9_contains_tolerance ⟨(0, 0), (1, 0), some 1, 1⟩ (by norm_num)⟩

/-- Helper: in the non-parallel case, `Line.intersect` reduces to the
Cramer solution guarded by the two segment-bound tests. -/
theorem intersect_eq_of_det_ne (L1 L2 : Line) (hdet : isectDet L1 L2 ≠ 0) :
    L1.intersect L2 =
      if inBounds L1.length (isectS1 L1 L2) then
        if inBounds L2.length (isectS2 L1 L2) then ISect.pt (L1.point (isectS1 L1 L2))
        else ISect.none
      else ISect.none := by
  simp only [isectDet] at hdet
  simp only [Line.intersect, isectS1, isectS2, isectDet]
  rw [if_pos hdet]

/-- C2: for non-parallel lines, `intersect` returns the Cramer-rule point
`self.point(s1)` exactly when both parameters pass their `[0, length]`
bound tests (a `None` length waives the test), the returned point is the
common solution of both parametric line equations, and that solution is
unique. -/
theorem C2_nonparallel_cramer (L1 L2 : Line) (hdet : isectDet L1 L2 ≠ 0) :
    (inBounds L1.length (isectS1 L1 L2) = true → inBounds L2.length (isectS2 L1 L2) = true →
      L1.intersect L2 = ISect.pt (L1.point (isectS1 L1 L2))) ∧
    (¬(inBounds L1.length (isectS1 L1 L2) = true ∧ inBounds L2.length (isectS2 L1 L2) = true) →
      L1.intersect L2 = ISect.none) ∧
    L1.point (isectS1 L1 L2) = L2.point (isectS2 L1 L2) ∧
    (∀ t1 t2, L1.point t1 = L2.point t2 → t1 = isectS1 L1 L2 ∧ t2 = isectS2 L1 L2) := by
  have hdet' : L2.u.1 * L1.u.2 - L1.u.1 * L2.u.2 ≠ 0 := hdet
  refine ⟨?_, ?_, ?_, ?_⟩
  · intro h1 h2
    rw [intersect_eq_of_det_ne L1 L2 hdet, if_pos h1, if_pos h2]
  · intro hnot
    rw [intersect_eq_of_det_ne L1 L2 hdet]
    by_cases hb1 : inBounds L1.length (isectS1 L1 L2) = true
    · by_cases hb2 : inBounds L2.length (isectS2 L1 L2) = true
      · exact absurd ⟨hb1, hb2⟩ hnot
      · rw [if_pos hb1, if_neg hb2]
    · rw [if_neg hb1]
  · simp only [Line.point, isectS1, isectS2, isectDet, Prod.ext_iff]
    constructor
    · field_simp
      ring
    · field_simp
      ring
  · intro t1 t2 h
    rw [Prod.ext_iff] at h
    obtain ⟨hx, hy⟩ := h
    simp only [Line.point] at hx hy
    constructor
    · rw [isectS1, isectDet, eq_div_iff hdet']
      linear_combination L2.u.1 * hy - L2.u.2 * hx
    · rw [isectS2, isectDet, eq_div_iff hdet']
      linear_combination L1.u.1 * hy - L1.u.2 * hx

/-- C2 witness: the x-axis segment of length 5 and the vertical segment
rising from `(2, -1)` with length 3 are non-parallel; their intersection
parameters pass both bound tests. -/
theorem C2_witness :
    isectDet ⟨(0, 0), (1, 0), some 5, 1⟩ ⟨(2, -1), (0, 1), some 3, 1⟩ ≠ 0 ∧
    ((inBounds (⟨(0, 0), (1, 0), some 5, 1⟩ : Line).length
        (isectS1 ⟨(0, 0), (1, 0), some 5, 1⟩ ⟨(2, -1), (0, 1), some 3, 1⟩) = true →
      inBounds (⟨(2, -1), (0, 1), some 3, 1⟩ : Line).length
        (isectS2 ⟨(0, 0), (1, 0), some 5, 1⟩ ⟨(2, -1), (0, 1), some 3, 1⟩) = true →
      Line.intersect ⟨(0, 0), (1, 0), some 5, 1⟩ ⟨(2, -1), (0, 1), some 3, 1⟩ =
        ISect.pt ((⟨(0, 0), (1, 0), some 5, 1⟩ : Line).point
          (isectS1 ⟨(0, 0), (1, 0), some 5, 1⟩ ⟨(2, -1), (0, 1), some 3, 1⟩))) ∧
    (¬(inBounds (⟨(0, 0), (1, 0), some 5, 1⟩ : Line).length
        (isectS1 ⟨(0, 0), (1, 0), some 5, 1⟩ ⟨(2, -1), (0, 1), some 3, 1⟩) = true ∧
      inBounds (⟨(2, -1), (0, 1), some 3, 1⟩ : Line).length
        (isectS2 ⟨(0, 0), (1, 0), some 5, 1⟩ ⟨(2, -1), (0, 1), some 3, 1⟩) = true) →
      Line.intersect ⟨(0, 0), (1, 0), some 5, 1⟩ ⟨(2, -1), (0, 1), some 3, 1⟩ = ISect.none) ∧
    (⟨(0, 0), (1, 0), some 5, 1⟩ : Line).point
        (isectS1 ⟨(0, 0), (1, 0), some 5, 1⟩ ⟨(2, -1), (0, 1), some 3, 1⟩) =
      (⟨(2, -1), (0, 1), some 3, 1⟩ : Line).point
        (isectS2 ⟨(0, 0), (1, 0), some 5, 1⟩ ⟨(2, -1), (0, 1), some 3, 1⟩) ∧
    (∀ t1 t2, (⟨(0, 0), (1, 0), some 5, 1⟩ : Line).point t1 =
        (⟨(2, -1), (0, 1), some 3, 1⟩ : Line).point t2 →
      t1 = isectS1 ⟨(0, 0), (1, 0), some 5, 1⟩ ⟨(2, -1), (0, 1), some 3, 1⟩ ∧
      t2 = isectS2 ⟨(0, 0), (1, 0), some 5, 1⟩ ⟨(2, -1), (0, 1), some 3, 1⟩)) :=
  ⟨by norm_num [isectDet],
   C2_nonparallel_cramer ⟨(0, 0), (1, 0), some 5, 1⟩ ⟨(2, -1), (0, 1), some 3, 1⟩
     (by norm_num [isectDet])⟩

/-- C3: for a finite segment of positive length and any point `p`,
`Line.closest` clamps the projection parameter to `[0, length]`; the
returned point lies on the segment and minimizes the (squared, hence
also the plain) Euclidean distance to `p` among all points of the
segment. -/
theorem C3_closest_minimizes (L : Line) (l : ℚ) (p : ℚ × ℚ)
    (hu : L.u.1 ^ 2 + L.u.2 ^ 2 = 1) (hl : L.length = some l) (hl0 : 0 < l) :
    (∃ s, 0 ≤ s ∧ s ≤ l ∧ L.closest p = L.point s) ∧
    (∀ t, 0 ≤ t → t ≤ l → dist2 (L.closest p) p ≤ dist2 (L.point t) p) ∧
    (∀ t, 0 ≤ t → t ≤ l →
      Real.sqrt ((dist2 (L.closest p) p : ℝ)) ≤ Real.sqrt ((dist2 (L.point t) p : ℝ))) := by
  have hcl : L.closest p =
      L.point (if (L.parameters p).1 < 0 then 0
        else if (L.parameters p).1 > l then l else (L.parameters p).1) := by
    simp only [Line.closest, hl]
    rw [if_neg hl0.ne']
  have hmin : ∀ t, 0 ≤ t → t ≤ l → dist2 (L.closest p) p ≤ dist2 (L.point t) p := by
    intro t ht0 htl
    rw [hcl, dist2_point_decomp L p hu, dist2_point_decomp L p hu]
    have hsq : (if (L.parameters p).1 < 0 then 0
        else if (L.parameters p).1 > l then l else (L.parameters p).1) -
          (L.parameters p).1 = 0 ∨
        ((if (L.parameters p).1 < 0 then 0
          else if (L.parameters p).1 > l then l else (L.parameters p).1) -
            (L.parameters p).1) ^ 2 ≤ (t - (L.parameters p).1) ^ 2 := by
      by_cases h1 : (L.parameters p).1 < 0
      · right
        simp only [if_pos h1]
        nlinarith
      · by_cases h2 : (L.parameters p).1 > l
        · right
          simp only [if_neg h1, if_pos h2]
          nlinarith
        · left
          simp only [if_neg h1, if_neg h2]
          ring
    rcases hsq with h | h
    · rw [h]
      nlinarith [sq_nonneg (t - (L.parameters p).1)]
    · linarith
  refine ⟨?_, hmin, fun t ht0 htl => ?_⟩
  · refine ⟨if (L.parameters p).1 < 0 then 0
      else if (L.parameters p).1 > l then l else (L.parameters p).1, ?_, ?_, hcl⟩
    · by_cases h1 : (L.parameters p).1 < 0
      · simp [h1]
      · by_cases h2 : (L.parameters p).1 > l
        · simp only [if_neg h1, if_pos h2]
          exact hl0.le
        · simp only [if_neg h1, if_neg h2]
          exact le_of_not_lt h1
    · by_cases h1 : (L.parameters p).1 < 0
      · simp only [if_pos h1]
        exact hl0.le
      · by_cases h2 : (L.parameters p).1 > l
        · simp [h1, h2]
        · simp only [if_neg h1, if_neg h2]
          exact le_of_not_lt h2
  · exact Real.sqrt_le_sqrt (by exact_mod_cast hmin t ht0 htl)

/-- C3 witness: the segment from `(0,0)` to `(2,0)` and the point
`(5, 3)`. -/
theorem C3_witness :
    ((⟨(0, 0), (1, 0), some 2, 1⟩ : Line).u.1 ^ 2 +
      (⟨(0, 0), (1, 0), some 2, 1⟩ : Line).u.2 ^ 2 = 1) ∧
    (⟨(0, 0), (1, 0), some 2, 1⟩ : Line).length = some 2 ∧ (0 : ℚ) < 2 ∧
    ((∃ s, 0 ≤ s ∧ s ≤ 2 ∧ (⟨(0, 0), (1, 0), some 2, 1⟩ : Line).closest (5, 3) =
        (⟨(0, 0), (1, 0), some 2, 1⟩ : Line).point s) ∧
    (∀ t, 0 ≤ t → t ≤ 2 →
      dist2 ((⟨(0, 0), (1, 0), some 2, 1⟩ : Line).closest (5, 3)) (5, 3) ≤
        dist2 ((⟨(0, 0), (1, 0), some 2, 1⟩ : Line).point t) (5, 3)) ∧
    (∀ t, 0 ≤ t → t ≤ 2 →
      Real.sqrt ((dist2 ((⟨(0, 0), (1, 0), some 2, 1⟩ : Line).closest (5, 3)) (5, 3) : ℝ)) ≤
        Real.sqrt ((dist2 ((⟨(0, 0), (1, 0), some 2, 1⟩ : Line).point t) (5, 3) : ℝ)))) :=
  ⟨by norm_num, rfl, by norm_num,
   C3_closest_minimizes ⟨(0, 0), (1, 0), some 2, 1⟩ 2 (5, 3) (by norm_num) rfl (by norm_num)⟩

/-- Helper: rotating a plane vector by `-a` undoes rotating it by `a`. -/
theorem rotVec_neg_rotVec (a : ℝ) (v : ℝ × ℝ) : rotVec (-a) (rotVec a v) = v := by
  simp only [rotVec, Real.cos_neg, Real.sin_neg, Prod.ext_iff]
  constructor
  · linear_combination v.1 * Real.sin_sq_add_cos_sq a
  · linear_combination v.2 * Real.sin_sq_add_cos_sq a

/-- Helper: rotating around a pivot by `-a` undoes rotating around the
same pivot by `a`. -/
theorem rotAbout_neg_rotAbout (a : ℝ) (c p : ℝ × ℝ) :
    rotAbout (-a) c (rotAbout a c p) = p := by
  simp only [rotAbout, rotVec, Real.cos_neg, Real.sin_neg, Prod.ext_iff]
  constructor
  · linear_combination (p.1 - c.1) * Real.sin_sq_add_cos_sq a
  · linear_combination (p.2 - c.2) * Real.sin_sq_add_cos_sq a

/-- C6: `rotate(a)` followed by `rotate(-a)` restores a Polygon's vertex
list (and anchor and cumulative angle), and the same round-trip holds for
`PVector.rotate` about a fixed pivot (both the vector value and the tail
anchor return to their originals). -/
theorem C6_rotate_roundtrip :
    (∀ (P : Polygon) (a : ℝ),
      ((P.rotate a).rotate (-a)).vertices = P.vertices ∧
      ((P.rotate a).rotate (-a)).pos = P.pos ∧
      ((P.rotate a).rotate (-a)).angle = P.angle) ∧
    (∀ (v : PV) (a : ℝ) (xy : ℝ × ℝ),
      ((v.rotate a xy).rotate (-a) xy).vec = v.vec ∧
      ((v.rotate a xy).rotate (-a) xy).tail = v.tail) := by
  constructor
  · intro P a
    refine ⟨?_, rfl, by simp [Polygon.rotate]⟩
    simp only [Polygon.rotate, List.map_map]
    have : (fun p => rotAbout (-a) P.pos p) ∘ (fun p => rotAbout a P.pos p) = id := by
      funext p
      exact rotAbout_neg_rotAbout a P.pos p
    rw [this, List.map_id]
  · intro v a xy
    exact ⟨rotVec_neg_rotVec a v.vec, rotAbout_neg_rotAbout a xy v.tail⟩

/-- C4 counterexample: the direction-vector constructor path does not set
`length` to the `None` sentinel; `Line((0,0), vector=(3,4))` gets the
finite length `hypot(3,4) = 5`. -/
theorem C4_counterexample :
    (lineInit ((0 : ℚ), (0 : ℚ)) (.vec (3, 4))).length ≠ none ∧
    (lineInit ((0 : ℚ), (0 : ℚ)) (.vec (3, 4))).length = some 5 := by
  have h5 : Real.sqrt ((((3 : ℚ) : ℝ)) ^ 2 + (((4 : ℚ) : ℝ)) ^ 2) = 5 := by
    rw [show (((3 : ℚ) : ℝ)) ^ 2 + (((4 : ℚ) : ℝ)) ^ 2 = 5 ^ 2 by norm_num]
    exact Real.sqrt_sq (by norm_num)
  constructor
  · simp [lineInit]
  · show some (Real.sqrt ((((3 : ℚ) : ℝ)) ^ 2 + (((4 : ℚ) : ℝ)) ^ 2)) = some 5
    rw [h5]

/-- C4 (amended): the direction-vector path normalizes `u` to a unit
vector (for a nonzero vector) but stores the finite magnitude
`hypot(ux, uy)` in `length` — never the `None` infinite-line sentinel;
the start+end path stores the distance between the two points. -/
theorem C4_init_normalizes (start v p : ℚ × ℚ) (hv : v ≠ 0) :
    (lineInit start (.vec v)).length =
      some (Real.sqrt (((v.1 : ℝ)) ^ 2 + ((v.2 : ℝ)) ^ 2)) ∧
    (lineInit start (.vec v)).length ≠ none ∧
    (lineInit start (.vec v)).u.1 ^ 2 + (lineInit start (.vec v)).u.2 ^ 2 = 1 ∧
    (lineInit start (.pt p)).length =
      some (Real.sqrt ((((p.1 - start.1 : ℚ)) : ℝ) ^ 2 + (((p.2 - start.2 : ℚ)) : ℝ) ^ 2)) := by
  have hvq : (0 : ℚ) < v.1 ^ 2 + v.2 ^ 2 := by
    have h12 : v.1 ≠ 0 ∨ v.2 ≠ 0 := by
      by_contra hc
      push_neg at hc
      exact hv (Prod.ext_iff.mpr ⟨hc.1, hc.2⟩)
    rcases h12 with h | h
    · positivity
    · positivity
  have hvr : (0 : ℝ) < ((v.1 : ℝ)) ^ 2 + ((v.2 : ℝ)) ^ 2 := by exact_mod_cast hvq
  have hs : Real.sqrt (((v.1 : ℝ)) ^ 2 + ((v.2 : ℝ)) ^ 2) ≠ 0 :=
    (Real.sqrt_pos.mpr hvr).ne'
  refine ⟨rfl, by simp [lineInit], ?_, rfl⟩
  show ((v.1 : ℝ) / Real.sqrt (((v.1 : ℝ)) ^ 2 + ((v.2 : ℝ)) ^ 2)) ^ 2 +
    ((v.2 : ℝ) / Real.sqrt (((v.1 : ℝ)) ^ 2 + ((v.2 : ℝ)) ^ 2)) ^ 2 = 1
  rw [div_pow, div_pow, div_add_div_same, Real.sq_sqrt hvr.le]
  exact div_self hvr.ne'

/-- C4 witness: concrete instance at `start = (1,2)`, `vector = (3,4)`,
`point = (4,6)`. -/
theorem C4_witness :
    ((3 : ℚ), (4 : ℚ)) ≠ (0 : ℚ × ℚ) ∧
    ((lineInit ((1 : ℚ), (2 : ℚ)) (.vec (3, 4))).length =
      some (Real.sqrt ((((3 : ℚ) : ℝ)) ^ 2 + (((4 : ℚ) : ℝ)) ^ 2)) ∧
    (lineInit ((1 : ℚ), (2 : ℚ)) (.vec (3, 4))).length ≠ none ∧
    (lineInit ((1 : ℚ), (2 : ℚ)) (.vec (3, 4))).u.1 ^ 2 +
      (lineInit ((1 : ℚ), (2 : ℚ)) (.vec (3, 4))).u.2 ^ 2 = 1 ∧
    (lineInit ((1 : ℚ), (2 : ℚ)) (.pt (4, 6))).length =
      some (Real.sqrt ((((4 - 1 : ℚ)) : ℝ) ^ 2 + (((6 - 2 : ℚ)) : ℝ) ^ 2))) :=
  ⟨by norm_num [Prod.ext_iff],
   C4_init_normalizes (1, 2) (3, 4) (4, 6) (by norm_num [Prod.ext_iff])⟩

/-- C10: for a negative magnitude, `PVector.__init__` negates the
magnitude and adds 180° to the angle, so `PVector(mag, theta)` equals
`PVector(-mag, theta + 180)`. -/
theorem C10_negative_magnitude (mag theta : ℚ) (hm : mag < 0) :
    PVinit mag theta = PVinit (-mag) (theta + 180) := by
  unfold PVinit
  rw [if_pos hm, if_neg (by linarith : ¬(-mag : ℚ) < 0)]

/-- C10 witness: concrete instance at `mag = -3`, `theta = 45`. -/
theorem C10_witness :
    (-3 : ℚ) < 0 ∧ PVinit (-3) 45 = PVinit (-(-3)) (45 + 180) :=
  ⟨by norm_num, C10_negative_magnitude (-3) 45 (by norm_num)⟩

/-- Helper: a term whose conversion succeeds shifts from the token list
into the accumulator. -/
theorem assemble_cons (acc : List PV) (t : Tok) (ts : List Tok) (r : List Char) (v : PV)
    (hv : convertTok t = some v) :
    assemble acc (t :: ts, r) = assemble (v :: acc) (ts, r) := by
  simp only [assemble, convertAll, hv]
  cases hca : convertAll ts with
  | none => rfl
  | some vs =>
    by_cases hr : r = [] <;>
      simp [hr, List.reverse_cons, List.append_assoc]

/-- Helper: a term whose conversion fails makes the whole assembly fail. -/
theorem assemble_cons_err (acc : List PV) (t : Tok) (ts : List Tok) (r : List Char)
    (hv : convertTok t = none) :
    assemble acc (t :: ts, r) = .error () := by
  cases hca : convertAll ts with
  | none => simp [assemble, convertAll, hv, hca]
  | some vs => simp [assemble, convertAll, hv, hca]

/-- Helper (loop/skeleton correspondence): the parse loop interleaves
regex matching and `float` conversion, while `tokens` only matches; the
loop's outcome is exactly the assembly of the skeleton's output.  Both
recursions consume the same characters with the same fuel, so the
equation holds for every fuel value. -/
theorem parseLoop_eq_assemble :
    ∀ (fuel : Nat) (expr : List Char) (acc : List PV),
      parseLoop fuel expr acc = assemble acc (tokens fuel expr) := by
  intro fuel
  induction fuel with
  | zero =>
    intro expr acc
    cases expr with
    | nil => simp [parseLoop, tokens, assemble, convertAll]
    | cons c cs => simp [parseLoop, tokens, assemble, convertAll]
  | succ fuel ih =>
    intro expr acc
    cases expr with
    | nil => simp [parseLoop, tokens, assemble, convertAll]
    | cons c cs =>
      cases hmc : matchCart ((stripSign (c :: cs)).2) with
      | some n =>
        cases hcv : cartVal (((stripSign (c :: cs)).2).take n) with
        | some v =>
          have hct : convertTok
              ((stripSign (c :: cs)).1, false, ((stripSign (c :: cs)).2).take n) =
              some (if (stripSign (c :: cs)).1 then pvNeg v else v) := by
            simp [convertTok, hcv]
          simp only [parseLoop, tokens, hmc, hcv]
          rw [assemble_cons _ _ _ _ _ hct]
          exact ih _ _
        | none =>
          have hct : convertTok
              ((stripSign (c :: cs)).1, false, ((stripSign (c :: cs)).2).take n) = none := by
            simp [convertTok, hcv]
          simp only [parseLoop, tokens, hmc, hcv]
          rw [assemble_cons_err _ _ _ _ hct]
      | none =>
        cases hmp : matchPolar ((stripSign (c :: cs)).2) with
        | some n =>
          cases hpv : polarVal (((stripSign (c :: cs)).2).take n) with
          | some v =>
            have hct : convertTok
                ((stripSign (c :: cs)).1, true, ((stripSign (c :: cs)).2).take n) =
                some (if (stripSign (c :: cs)).1 then pvNeg v else v) := by
              simp [convertTok, hpv]
            simp only [parseLoop, tokens, hmc, hmp, hpv]
            rw [assemble_cons _ _ _ _ _ hct]
            exact ih _ _
          | none =>
            have hct : convertTok
                ((stripSign (c :: cs)).1, true, ((stripSign (c :: cs)).2).take n) = none := by
              simp [convertTok, hpv]
            simp only [parseLoop, tokens, hmc, hmp, hpv]
            rw [assemble_cons_err _ _ _ _ hct]
        | none =>
          simp only [parseLoop, tokens, hmc, hmp]
          by_cases he : (stripSign (c :: cs)).2 = [] <;>
            simp [he, assemble, convertAll]

/-- C7 (amended): `PVector.parse` fails exactly when, after stripping
whitespace and greedily matching signed Cartesian/polar terms from the
front, a non-empty unmatched remainder is left **or** one of the matched
terms contains a numeric token rejected by `float` (possible because the
`_num` regex admits, e.g., an exponent marker with no digits); on error no
list is returned, and on success the full list of parsed vectors is
returned. -/
theorem C7_parse_error_iff (s : String) :
    parse s = .error () ↔
      ((parseTokens s).2 ≠ [] ∨ convertAll (parseTokens s).1 = none) := by
  have h := parseLoop_eq_assemble ((stripWs s).length + 1) (stripWs s) []
  simp only [parse]
  rw [h]
  simp only [parseTokens, assemble]
  cases hca : convertAll (tokens ((stripWs s).length + 1) (stripWs s)).1 with
  | none => simp
  | some vs =>
    by_cases hr : (tokens ((stripWs s).length + 1) (stripWs s)).2 = []
    · simp [hr]
    · simp [hr]

/-- C7 counterexample: the claim's "only if" direction fails.  On input
`"1e@0"` the polar regex consumes the whole string (the exponent group
`[e|E][-|\+]{0,1}[\d]*` matches `e` with zero digits), so the unmatched
remainder is empty, yet `float("1e")` raises `ValueError` and
`PVector.parse` fails. -/
theorem C7_counterexample :
    parse ("1e@0") = .error () ∧ (parseTokens ("1e@0")).2 = [] := by
  refine ⟨?_, by decide⟩
  have h := parseLoop_eq_assemble ((stripWs ("1e@0")).length + 1) (stripWs ("1e@0")) []
  simp only [parse]
  rw [h]
  have ht : tokens ((stripWs ("1e@0")).length + 1) (stripWs ("1e@0")) =
      ([(false, true, ['1', 'e', '@', '0'])], []) := by decide
  rw [ht]
  have hsplit : (['1', 'e', '@', '0'].splitOn '@') = [['1', 'e'], ['0']] := by decide
  have h1e : pyFloat ['1', 'e'] = none := by decide
  have hp : polarVal ['1', 'e', '@', '0'] = none := by
    simp only [polarVal, hsplit, h1e]
  simp [assemble, convertAll, convertTok, hp]

/-- Helper: re-anchoring the tails never changes the vector values. -/
theorem tttAux_map_vec : ∀ (v0 : PV) (vs : List PV),
    (tttAux v0 vs).map PV.vec = vs.map PV.vec := by
  intro v0 vs
  induction vs generalizing v0 with
  | nil => rfl
  | cons v vs ih => simp [tttAux, setTail, ih]

/-- Helper: after the loop, each vector's tail is the tip of its
(updated) predecessor, starting from the untouched head. -/
theorem tttAux_chain : ∀ (v0 : PV) (vs : List PV),
    List.Chain' (fun a b => b.tail = tip a) (v0 :: tttAux v0 vs) := by
  intro v0 vs
  induction vs generalizing v0 with
  | nil => simp [tttAux]
  | cons v vs ih =>
    simp only [tttAux]
    exact List.chain'_cons.mpr ⟨rfl, ih (setTail v (tip v0))⟩

/-- Helper: `float("1") = 1`. -/
theorem pyFloat_one : pyFloat ['1'] = some 1 := by
  show some ((1 : ℚ) * (((1 : ℕ) : ℚ) + ((0 : ℕ) : ℚ) / 10 ^ (0 : ℕ))) = some (1 : ℚ)
  norm_num

/-- Helper: `float("0") = 0`. -/
theorem pyFloat_zero : pyFloat ['0'] = some 0 := by
  show some ((1 : ℚ) * (((0 : ℕ) : ℚ) + ((0 : ℕ) : ℚ) / 10 ^ (0 : ℕ))) = some (0 : ℚ)
  norm_num

/-- Helper: the Cartesian token `(1,0)` converts to the unit x-vector. -/
theorem cartVal_10 : cartVal ['(', '1', ',', '0', ')'] =
    some { vec := ((1 : ℝ), (0 : ℝ)), tail := (0, 0) } := by
  have hsplit : ((['(', '1', ',', '0', ')'].drop 1).dropLast).splitOn ',' =
      [['1'], ['0']] := by decide
  simp only [cartVal, hsplit, pyFloat_one, pyFloat_zero]
  norm_num

/-- Helper: the Cartesian token `(0,1)` converts to the unit y-vector. -/
theorem cartVal_01 : cartVal ['(', '0', ',', '1', ')'] =
    some { vec := ((0 : ℝ), (1 : ℝ)), tail := (0, 0) } := by
  have hsplit : ((['(', '0', ',', '1', ')'].drop 1).dropLast).splitOn ',' =
      [['0'], ['1']] := by decide
  simp only [cartVal, hsplit, pyFloat_one, pyFloat_zero]
  norm_num

/-- Helper: full evaluation of `PVector.parse("(1,0)+(0,1)")`. -/
theorem parse_example :
    parse ("(1,0)+(0,1)") =
      .ok [{ vec := ((1 : ℝ), (0 : ℝ)), tail := (0, 0) },
           { vec := ((0 : ℝ), (1 : ℝ)), tail := ((1 : ℝ), (0 : ℝ)) }] := by
  have h := parseLoop_eq_assemble ((stripWs ("(1,0)+(0,1)")).length + 1)
    (stripWs ("(1,0)+(0,1)")) []
  have htok : tokens ((stripWs ("(1,0)+(0,1)")).length + 1) (stripWs ("(1,0)+(0,1)")) =
      ([(false, false, ['(', '1', ',', '0', ')']),
        (false, false, ['(', '0', ',', '1', ')'])], []) := by decide
  simp only [parse]
  rw [h, htok]
  simp only [assemble, convertAll, convertTok, cartVal_10, cartVal_01]
  norm_num [tipToTail, tttAux, setTail, tip]

/-- C8: `tipToTail` keeps every vector value and the whole first vector
unchanged and re-anchors each subsequent tail to the (updated)
predecessor's tip; in particular `PVector.parse("(1,0)+(0,1)")` yields
two vectors, the first with tail `(0,0)` and tip `(1,0)`, the second with
tail `(1,0)` and tip `(1,1)`, and `PVector.sum` of the parsed list equals
`(1,1)`. -/
theorem C8_tiptotail_layout :
    (∀ l : List PV,
      (tipToTail l).map PV.vec = l.map PV.vec ∧
      (tipToTail l).head? = l.head? ∧
      List.Chain' (fun a b => b.tail = tip a) (tipToTail l)) ∧
    (∃ a b, parse ("(1,0)+(0,1)") = .ok [a, b] ∧
      a.tail = (0, 0) ∧ tip a = (1, 0) ∧ b.tail = (1, 0) ∧ tip b = (1, 1) ∧
      (PVsum [a, b]).vec = (1, 1)) := by
  constructor
  · intro l
    cases l with
    | nil => exact ⟨rfl, rfl, List.chain'_nil⟩
    | cons v vs =>
      refine ⟨?_, rfl, ?_⟩
      · simp [tipToTail, tttAux_map_vec]
      · exact tttAux_chain v vs
  · refine ⟨{ vec := ((1 : ℝ), (0 : ℝ)), tail := (0, 0) },
      { vec := ((0 : ℝ), (1 : ℝ)), tail := ((1 : ℝ), (0 : ℝ)) },
      parse_example, rfl, ?_, rfl, ?_, ?_⟩
    · norm_num [tip]
    · norm_num [tip]
    · norm_num [PVsum]

end Sc8pr
